import Mathlib

/-!
Verification of the rendering logic of `src/app.js` (a client-side renderer
for a bilingual critical edition) against its natural-language specification.

The JavaScript source is shallowly embedded: DOM construction is modelled as
pure functions from the payload data to explicit tree descriptions, the raw
HTML markup of a division is modelled as an already-parsed forest of nodes
(the code itself never parses strings by hand, it delegates to `innerHTML`),
browser state touched by the handlers (theme attribute, local storage,
section class list, button attributes) is modelled as explicit state records,
and `async` / `fetch` is modelled by passing in the environment the code
would observe (the pre-set global payload and the response the fetch
resolves with).

JavaScript falsiness of the string-or-undefined fields is modelled by
`Option String` together with `truthy` / `strVal` below: `none` stands for
an absent (undefined) field and `some ""` for a present empty string, both
of which are falsy in JS.
-/

namespace App

/-- JS value of a string-or-undefined field: undefined reads as `""` when
the code coerces with `x || ""`. -/
def strVal (o : Option String) : String := o.getD ""

/-- JS truthiness of a string-or-undefined value: undefined and `""` are
falsy, every other string is truthy. -/
def truthy (o : Option String) : Bool := strVal o ≠ ""

/-! ## sanitizeId (src/app.js lines 9-11)

`String(n || "").replace(/[^a-zA-Z0-9.\-_]+/g, "_").replace(/^_+|_+$/g, "")`

The first regex replaces every maximal run of characters outside
`[a-zA-Z0-9.\-_]` by a single underscore (the `+` makes the run collapse);
the second trims leading and trailing underscores. -/

/-- Characters of the class `[a-zA-Z0-9.\-_]` in the sanitizing regex.
`Char.isAlpha` and `Char.isDigit` are exactly the ASCII ranges the regex
names. -/
def isAllowed (c : Char) : Bool :=
  c.isAlpha || c.isDigit || c = '.' || c = '-' || c = '_'

/-- One pass of `replace(/[^a-zA-Z0-9.\-_]+/g, "_")`: the Boolean flag
records whether we are inside a run of disallowed characters whose
single replacement underscore has already been emitted. -/
def collapseAux : Bool → List Char → List Char
  | _, [] => []
  | inRun, c :: cs =>
    if isAllowed c then c :: collapseAux false cs
    else if inRun then collapseAux true cs
    else '_' :: collapseAux true cs

/-- `replace(/[^a-zA-Z0-9.\-_]+/g, "_")` on a character list. -/
def collapseRuns (l : List Char) : List Char := collapseAux false l

/-- `replace(/^_+|_+$/g, "")`: drop leading and trailing underscores. -/
def trimUnderscores (l : List Char) : List Char :=
  ((l.dropWhile (fun c => c = '_')).reverse.dropWhile (fun c => c = '_')).reverse

/-- `sanitizeId` from src/app.js lines 9-11.  The call sites always pass an
actual string, on which the inner `String(n || "")` coercion is the
identity (`"" || ""` is `""`). -/
def sanitizeId (s : String) : String :=
  String.mk (trimUnderscores (collapseRuns s.data))

/-! ## Divisions and their markup (Content Splitter, src/app.js lines 33-60)

The raw markup string `d.html` is assigned to `tmp.innerHTML`, i.e. parsed
into a detached DOM tree.  We model the parsed tree directly: a forest of
nodes, where a node is a paragraph element carrying its `lang` attribute,
some other element with children, or a text node.  (HTML forbids nesting a
`p` inside a `p`, so paragraph content is modelled as flat text.) -/

/-- A `p` element of the division markup with its `lang` attribute
(`none` when the attribute is absent) and its content. -/
structure Para where
  lang : Option String
  content : String
deriving DecidableEq, Repr

mutual
/-- A node of the parsed division markup. -/
inductive HNode where
  | para : Para → HNode
  | elem : String → HForest → HNode
  | text : String → HNode

/-- A forest of markup nodes, in document order. -/
inductive HForest where
  | nil : HForest
  | cons : HNode → HForest → HForest
end

/-- Does the paragraph match the selector `p[lang="t"]`? -/
def hasLang (t : String) (p : Para) : Bool := p.lang = some t

mutual
/-- Paragraph elements below one node matching `p[lang="t"]`, in document
order: the per-node part of `tmp.querySelectorAll` in `buildDivContent`. -/
def nodePs (t : String) : HNode → List Para
  | .para p => if hasLang t p then [p] else []
  | .elem _ ch => forestPs t ch
  | .text _ => []

/-- `Array.from(tmp.querySelectorAll(selector))` for `p[lang="t"]`:
all matching paragraph elements of the forest, in document order. -/
def forestPs (t : String) : HForest → List Para
  | .nil => []
  | .cons n rest => nodePs t n ++ forestPs t rest
end

mutual
/-- All paragraph elements below one node, in document order. -/
def nodeAllPs : HNode → List Para
  | .para p => [p]
  | .elem _ ch => forestAllPs ch
  | .text _ => []

/-- All paragraph elements of the forest, in document order. -/
def forestAllPs : HForest → List Para
  | .nil => []
  | .cons n rest => nodeAllPs n ++ forestAllPs rest
end

/-- A division of the payload (`payload.divs[i]`), src/app.js usage:
fields `n`, `type`, `html`, `commentaryHtml`, `apparatusHtml`; the markup
field is modelled already parsed (an absent `html` parses to the empty
forest, matching `d.html || ""`). -/
structure Div where
  n : Option String
  type : Option String
  html : HForest
  commentaryHtml : Option String
  apparatusHtml : Option String

/-- Result of `buildDivContent`: either the raw markup wrapped unchanged in
a single `div.div-html.sec-main` container, or the two-column
`bi-row`/`bi-left`/`bi-right` grid holding the moved paragraphs. -/
inductive DivContent where
  | plain (content : HForest)
  | bilingual (left right : List Para)

/-- `buildDivContent` from src/app.js lines 33-60: collect the
`p[lang="grc"]` and `p[lang="en"]` paragraphs of the parsed markup; when no
translation paragraph exists return the markup unchanged in a single
container, otherwise build the two-column row, moving the Greek paragraphs
into the left column and the English ones into the right column, each
`forEach`/`appendChild` preserving collection order. -/
def buildDivContent (d : Div) : DivContent :=
  let gr := forestPs "grc" d.html
  let en := forestPs "en" d.html
  if en.length = 0 then
    .plain d.html
  else
    .bilingual gr en

/-! ## Renderer (src/app.js lines 63-134)

`render` walks `payload.divs` twice: once to build the TOC anchors (lines
75-82) and once to build the content sections (lines 86-128).  Both passes
compute an id for the division; we model each pass's id expression as its
own definition, mirroring the two occurrences in the source. -/

/-- JS `d.n || d.type || ""`: first truthy value, else `""`. -/
def divLabel (d : Div) : String :=
  if truthy d.n then strVal d.n
  else if truthy d.type then strVal d.type
  else ""

/-- The id computed in the TOC pass, src/app.js line 76:
`"div_" + sanitizeId(d.n || d.type || "")`. -/
def tocId (d : Div) : String := "div_" ++ sanitizeId (divLabel d)

/-- The id computed in the body pass, src/app.js line 87: the same
expression written a second time in the source. -/
def sectionId (d : Div) : String := "div_" ++ sanitizeId (divLabel d)

/-- A TOC anchor as built in src/app.js lines 77-80. -/
structure TocEntry where
  href : String
  label : String
deriving DecidableEq, Repr

/-- The TOC anchor for one division, src/app.js lines 76-80:
`a.href` is `#id` and `a.textContent` is `d.n ? d.n : (d.type || "div")`. -/
def tocEntry (d : Div) : TocEntry :=
  { href := "#" ++ tocId d,
    label := if truthy d.n then strVal d.n
             else if truthy d.type then strVal d.type
             else "div" }

/-- State of the annotation toggle button: its `aria-expanded` attribute
and its visible label text. -/
structure BtnState where
  ariaExpanded : String
  label : String
deriving DecidableEq, Repr

/-- The collapsed-state label, src/app.js lines 105 and 176. -/
def mostraLabel : String := "Mostra commentario e apparato"

/-- The expanded-state label, src/app.js line 176. -/
def nascondiLabel : String := "Nascondi commentario e apparato"

/-- Per-section toggle state: whether the section element carries the
`expanded` class, together with the button's attributes. -/
structure SecView where
  expanded : Bool
  btn : BtnState
deriving DecidableEq, Repr

/-- `toggleSection` from src/app.js lines 172-178:
`sec.classList.toggle("expanded")` flips the class and returns the new
presence, then the button's `aria-expanded` attribute and label are set
from it.  (In `render` the button argument is always the section's own
button, never null, so the `if (btn)` guard is taken.) -/
def toggleSection (v : SecView) : SecView :=
  let expanded := !v.expanded
  { expanded := expanded,
    btn := { ariaExpanded := if expanded then "true" else "false",
             label := if expanded then nascondiLabel else mostraLabel } }

/-- JS whitespace trim of `x.trim()`, on the character list. -/
def trimChars (l : List Char) : List Char :=
  ((l.dropWhile Char.isWhitespace).reverse.dropWhile Char.isWhitespace).reverse

/-- `String.prototype.trim`. -/
def jsTrim (s : String) : String := String.mk (trimChars s.data)

/-- `!!(d.commentaryHtml && d.commentaryHtml.trim())`, src/app.js line 98. -/
def hasCommentary (d : Div) : Bool :=
  truthy d.commentaryHtml && jsTrim (strVal d.commentaryHtml) ≠ ""

/-- `!!(d.apparatusHtml && d.apparatusHtml.trim())`, src/app.js line 99. -/
def hasApparatus (d : Div) : Bool :=
  truthy d.apparatusHtml && jsTrim (strVal d.apparatusHtml) ≠ ""

/-- A rendered content section, src/app.js lines 86-127: its element id,
heading text, optional toggle button with its initial attributes, the
initial absence of the `expanded` class, the main content, and the
optional commentary/apparatus blocks. -/
structure SectionEl where
  id : String
  heading : String
  toggle : Option BtnState
  expandedClass : Bool
  content : DivContent
  commentary : Option String
  apparatus : Option String

/-- The section built for one division in the body pass of `render`,
src/app.js lines 86-127.  The heading is
`d.n ? d.n + (d.type ? " — " + d.type : "") : (d.type || "")` (line 95);
the button exists only when commentary or apparatus has non-blank content
(lines 100-108) and starts with `aria-expanded="false"` and the collapsed
label; the section element is created without the `expanded` class. -/
def renderSection (d : Div) : SectionEl :=
  { id := sectionId d,
    heading := if truthy d.n then
                 strVal d.n ++ (if truthy d.type then " — " ++ strVal d.type else "")
               else strVal d.type,
    toggle := if hasCommentary d || hasApparatus d then
                some { ariaExpanded := "false", label := mostraLabel }
              else none,
    expandedClass := false,
    content := buildDivContent d,
    commentary := if hasCommentary d then d.commentaryHtml else none,
    apparatus := if hasApparatus d then d.apparatusHtml else none }

/-! ## Payload and loader (src/app.js lines 2-7) -/

/-- A witness entry `{id, text}` of `payload.meta.witnesses`; `text` may be
absent (the renderer coerces with `w.text || ""`). -/
structure Witness where
  id : String
  text : Option String
deriving DecidableEq, Repr

/-- `payload.meta`; `witnesses` is `none` when absent or not an array. -/
structure Meta where
  title : Option String
  author : Option String
  witnesses : Option (List Witness)

/-- The document payload of `body.json`. -/
structure Payload where
  meta : Option Meta
  divs : List Div

/-- The response the fetch of `./body.json` resolves with: its `ok` flag,
its `statusText`, and the payload its body parses to. -/
structure FetchResponse where
  ok : Bool
  statusText : String
  json : Payload

/-- The environment `loadBodyJson` observes: the pre-set global
`window.__BODY__` (`some p` exactly when it is an object and not null),
and the response the fetch resolves with. -/
structure LoadEnv where
  windowBody : Option Payload
  response : FetchResponse

/-- Outcome of `loadBodyJson`: the returned payload or the thrown error
message, plus whether a fetch was performed at all. -/
structure LoadResult where
  result : Except String Payload
  fetched : Bool

/-- `loadBodyJson` from src/app.js lines 2-7: return the pre-set global
payload when it is a non-null object; otherwise fetch `./body.json` and
throw `Failed to fetch body.json: ` followed by the status text when the
response is not ok, else return the parsed body. -/
def loadBodyJson (env : LoadEnv) : LoadResult :=
  match env.windowBody with
  | some body => { result := .ok body, fetched := false }
  | none =>
    if !env.response.ok then
      { result := .error ("Failed to fetch body.json: " ++ env.response.statusText),
        fetched := true }
    else
      { result := .ok env.response.json, fetched := true }

/-! ## Theme toggle (src/app.js lines 14-30) -/

/-- Browser state the theme code touches: the root element's `data-theme`
attribute (`none` when removed) and the `theme` key of local storage. -/
structure ThemeState where
  attr : Option String
  stored : Option String
deriving DecidableEq, Repr

/-- The `apply` closure of `initThemeToggle`, src/app.js lines 17-21: the
resulting `data-theme` attribute for a requested mode. -/
def applyTheme (mode : Option String) : Option String :=
  if mode = some "dark" then some "dark"
  else if mode = some "light" then some "light"
  else none

/-- The click handler of the theme toggle, src/app.js lines 24-29: read
the current attribute, pick the next mode (`light` exactly when the
current attribute is `dark`, else `dark`), apply it and persist it. -/
def themeClick (st : ThemeState) : ThemeState :=
  let now := st.attr
  let next := if now = some "dark" then "light" else "dark"
  { attr := applyTheme (some next), stored := some next }

/-- The initial application `apply(saved || null)` of src/app.js lines
22-23: the stored preference is applied when truthy, else the attribute
is removed. -/
def initThemeApply (stored : Option String) : ThemeState :=
  { attr := applyTheme (if truthy stored then stored else none),
    stored := stored }

/-! ## Witness panel (src/app.js lines 137-170) -/

/-- The fixed fallback witness list, src/app.js lines 150-155. -/
def fallbackWitnesses : List Witness :=
  [ { id := "A", text := some "Codex A (fict.), saec. XII" },
    { id := "B", text := some "Codex B (fict.), saec. XIII" },
    { id := "C", text := some "Codex C (fict.), saec. XIV" },
    { id := "AI", text := some "Aulus Intellex (ed.)" } ]

/-- The resolved witness list of `renderSpecimen`, src/app.js lines
148-155: the payload list when `payload.meta` exists, `witnesses` is an
array and its length is truthy (non-zero); the fallback otherwise. -/
def resolveWitnesses (p : Payload) : List Witness :=
  match p.meta with
  | none => fallbackWitnesses
  | some m =>
    match m.witnesses with
    | none => fallbackWitnesses
    | some ws => if ws.length ≠ 0 then ws else fallbackWitnesses

/-- The displayed siglum of one witness, src/app.js line 165:
`w.id === "AI" ? "AI (ed.)" : w.id`. -/
def displaySiglum (w : Witness) : String :=
  if w.id = "AI" then "AI (ed.)" else w.id

/-- What `renderSpecimen` leaves in the DOM: nothing when the sidebar is
absent, a cleared host, or the sigla card with one (term, definition)
pair per witness. -/
inductive SpecimenResult where
  | skipped
  | cleared
  | card (entries : List (String × String))
deriving DecidableEq, Repr

/-- `renderSpecimen` from src/app.js lines 137-170: bail out when the
sidebar container is absent; clear the host when the resolved list is
empty; otherwise render one `dt`/`dd` pair per witness, special-casing
the siglum `AI` and coercing a missing `text` with `w.text || ""`. -/
def renderSpecimen (sidebarPresent : Bool) (p : Payload) : SpecimenResult :=
  if !sidebarPresent then .skipped
  else
    let wits := resolveWitnesses p
    if wits.length = 0 then .cleared
    else .card (wits.map (fun w => (displaySiglum w, strVal w.text)))

/-! ## Definitions taken from the specification's words, for comparison

These two definitions are deliberately written from the spec/claim text,
not from the source, to be compared with the source-derived definitions
above. -/

/-- Modelled from the claim's words, for comparison with `sanitizeId`:
the label with every character outside `[A-Za-z0-9.\-_]` individually
mapped to an underscore, and leading/trailing underscores then trimmed. -/
def specSanitizeId (s : String) : String :=
  String.mk (trimUnderscores (s.data.map (fun c => if isAllowed c then c else '_')))

/-- Modelled from the claim's words, for comparison with `tocEntry`:
the TOC label is the division's n when present, else its type when
present, else the empty string. -/
def specTocLabel (d : Div) : String :=
  if truthy d.n then strVal d.n
  else if truthy d.type then strVal d.type
  else ""

/-! ## Concrete example inputs used by witnesses and counterexamples -/

/-- A division whose markup holds two Greek paragraphs (one nested inside
another element) and one English paragraph, interleaved with a text node. -/
def exDivBilingual : Div :=
  { n := some "1.1", type := some "verse",
    html := .cons (.elem "div" (.cons (.para { lang := some "grc", content := "x1" }) .nil))
             (.cons (.para { lang := some "en", content := "y" })
               (.cons (.text "note")
                 (.cons (.para { lang := some "grc", content := "x2" }) .nil))),
    commentaryHtml := none, apparatusHtml := none }

/-- A division whose markup holds Greek paragraphs but no English one. -/
def exDivGreekOnly : Div :=
  { n := some "1.2", type := some "verse",
    html := .cons (.para { lang := some "grc", content := "x" })
             (.cons (.para { lang := none, content := "plain" }) .nil),
    commentaryHtml := none, apparatusHtml := none }

/-- A division with neither `n` nor `type` and empty markup. -/
def emptyDiv : Div :=
  { n := none, type := none, html := .nil,
    commentaryHtml := none, apparatusHtml := none }

/-- A division whose label needs sanitizing: `a!!b` holds a run of two
disallowed characters. -/
def exDivBang : Div :=
  { n := some "a!!b", type := none, html := .nil,
    commentaryHtml := none, apparatusHtml := none }

/-- A division with commentary, hence with a toggle button. -/
def exDivCommented : Div :=
  { n := some "2", type := none, html := .nil,
    commentaryHtml := some "a note", apparatusHtml := none }

/-- The collapsed section state as `render` creates it: no `expanded`
class, `aria-expanded="false"`, the collapsed label. -/
def collapsedView : SecView :=
  { expanded := false, btn := { ariaExpanded := "false", label := mostraLabel } }

/-- The expanded section state reached after one toggle. -/
def expandedView : SecView :=
  { expanded := true, btn := { ariaExpanded := "true", label := nascondiLabel } }

/-- A payload with no `meta` at all (hence no witness list). -/
def pNoMeta : Payload := { meta := none, divs := [] }

/-- A payload with a one-entry witness list. -/
def pOneWitness : Payload :=
  { meta := some { title := some "T", author := some "A",
                   witnesses := some [ { id := "P", text := some "Papyrus" } ] },
    divs := [] }

/-- A load environment with no pre-set global payload and a failing
response. -/
def exEnvFail : LoadEnv :=
  { windowBody := none,
    response := { ok := false, statusText := "Not Found", json := pNoMeta } }

/-- A theme state whose root attribute is the explicit light mode. -/
def exThemeLight : ThemeState := { attr := some "light", stored := none }

/-! ## Helper lemmas -/

mutual
/-- The matched paragraphs below one node are the document-order
paragraphs below it filtered by the language selector. -/
theorem nodePs_eq_filter (t : String) : (n : HNode) →
    nodePs t n = (nodeAllPs n).filter (hasLang t)
  | .para p => by
      by_cases h : hasLang t p <;>
        simp [nodePs, nodeAllPs, List.filter_cons, h]
  | .elem tag ch => by
      simp only [nodePs, nodeAllPs]
      exact forestPs_eq_filter t ch
  | .text s => rfl

/-- `querySelectorAll` on the forest returns the document-order paragraph
list filtered by the language selector: matched paragraphs keep their
original relative order. -/
theorem forestPs_eq_filter (t : String) : (f : HForest) →
    forestPs t f = (forestAllPs f).filter (hasLang t)
  | .nil => rfl
  | .cons n rest => by
      simp only [forestPs, forestAllPs, List.filter_append]
      rw [nodePs_eq_filter t n, forestPs_eq_filter t rest]
end

/-- Every character emitted by the run-collapsing pass is in the allowed
class (the replacement underscore itself is allowed). -/
theorem isAllowed_of_mem_collapseAux :
    ∀ (l : List Char) (b : Bool), ∀ c ∈ collapseAux b l, isAllowed c = true := by
  intro l
  induction l with
  | nil => intro b c hc; simp [collapseAux] at hc
  | cons a l ih =>
    intro b c hc
    simp only [collapseAux] at hc
    split at hc
    · rcases List.mem_cons.mp hc with h | h
      · subst h; assumption
      · exact ih false c h
    · split at hc
      · exact ih true c hc
      · rcases List.mem_cons.mp hc with h | h
        · subst h; decide
        · exact ih true c h

/-- Trimming underscores only removes characters. -/
theorem mem_of_mem_trimUnderscores {c : Char} {l : List Char}
    (h : c ∈ trimUnderscores l) : c ∈ l := by
  unfold trimUnderscores at h
  rw [List.mem_reverse] at h
  have h1 := (List.dropWhile_sublist _).subset h
  rw [List.mem_reverse] at h1
  exact (List.dropWhile_sublist _).subset h1

/-- The head of `dropWhile p` never satisfies `p`. -/
theorem dropWhile_head_false (p : Char → Bool) :
    ∀ (l : List Char) (c : Char) (cs : List Char),
      l.dropWhile p = c :: cs → p c = false := by
  intro l
  induction l with
  | nil => intro c cs h; simp [List.dropWhile] at h
  | cons a l ih =>
    intro c cs h
    rw [List.dropWhile_cons] at h
    split at h
    · exact ih c cs h
    · next ha =>
      cases h
      simpa using ha

/-- `head?` form of `dropWhile_head_false`. -/
theorem dropWhile_head?_false (p : Char → Bool) (l : List Char) (c : Char)
    (h : (l.dropWhile p).head? = some c) : p c = false := by
  rcases hd : l.dropWhile p with _ | ⟨d, ds⟩
  · rw [hd] at h; simp at h
  · rw [hd] at h
    simp only [List.head?_cons, Option.some.injEq] at h
    subst h
    exact dropWhile_head_false p l d ds hd

/-- After the trim, the first character is not an underscore. -/
theorem trimUnderscores_head? (l : List Char) :
    (trimUnderscores l).head? ≠ some '_' := by
  unfold trimUnderscores
  rw [List.head?_reverse]
  rcases hr : (l.dropWhile (fun c => c = '_')).reverse.dropWhile (fun c => c = '_')
    with _ | ⟨c, cs⟩
  · simp
  · have hsuf := List.dropWhile_suffix (l := (l.dropWhile (fun c => c = '_')).reverse)
      (fun c => c = '_')
    rw [hr] at hsuf
    obtain ⟨t, ht⟩ := hsuf
    have hlast : (t ++ c :: cs).getLast? = (l.dropWhile (fun c => c = '_')).head? := by
      rw [ht, List.getLast?_reverse]
    rw [List.getLast?_append_of_ne_nil _ (by simp)] at hlast
    rw [hlast]
    intro hcontra
    have := dropWhile_head?_false (fun c => c = '_') l '_' hcontra
    simp at this

/-- After the trim, the last character is not an underscore. -/
theorem trimUnderscores_getLast? (l : List Char) :
    (trimUnderscores l).getLast? ≠ some '_' := by
  unfold trimUnderscores
  rw [List.getLast?_reverse]
  intro h
  have := dropWhile_head?_false (fun c => c = '_') _ '_' h
  simp at this

/-- Every character of a sanitized id is in the allowed class. -/
theorem sanitizeId_chars (s : String) :
    ∀ c ∈ (sanitizeId s).data, isAllowed c = true := by
  intro c hc
  exact isAllowed_of_mem_collapseAux s.data false c (mem_of_mem_trimUnderscores hc)

/-- A sanitized id does not start with an underscore. -/
theorem sanitizeId_head? (s : String) :
    (sanitizeId s).data.head? ≠ some '_' :=
  trimUnderscores_head? (collapseRuns s.data)

/-- A sanitized id does not end with an underscore. -/
theorem sanitizeId_getLast? (s : String) :
    (sanitizeId s).data.getLast? ≠ some '_' :=
  trimUnderscores_getLast? (collapseRuns s.data)

/-! ## Claims -/

/-- C1: for a division whose raw markup contains N `p[lang="grc"]`
paragraphs and M `p[lang="en"]` paragraphs with M > 0, `buildDivContent`
returns the two-column row whose left column holds exactly the N Greek
paragraphs and whose right column holds exactly the M English paragraphs,
each column in original document order (each column equals the
document-order paragraph list filtered to its language). -/
theorem C1_two_column_split (d : Div) (N M : Nat)
    (hN : ((forestAllPs d.html).filter (hasLang "grc")).length = N)
    (hM : ((forestAllPs d.html).filter (hasLang "en")).length = M)
    (hpos : 0 < M) :
    ∃ left right,
      buildDivContent d = .bilingual left right
      ∧ left = (forestAllPs d.html).filter (hasLang "grc")
      ∧ right = (forestAllPs d.html).filter (hasLang "en")
      ∧ left.length = N ∧ right.length = M := by
  refine ⟨forestPs "grc" d.html, forestPs "en" d.html, ?_,
    forestPs_eq_filter _ _, forestPs_eq_filter _ _, ?_, ?_⟩
  · simp only [buildDivContent]
    rw [if_neg]
    rw [forestPs_eq_filter, hM]
    omega
  · rw [forestPs_eq_filter]; exact hN
  · rw [forestPs_eq_filter]; exact hM

/-- Witness for C1 at a concrete division with two Greek paragraphs (one
nested) and one English paragraph. -/
theorem C1_two_column_split_holds :
    ∃ left right,
      buildDivContent exDivBilingual = .bilingual left right
      ∧ left = (forestAllPs exDivBilingual.html).filter (hasLang "grc")
      ∧ right = (forestAllPs exDivBilingual.html).filter (hasLang "en")
      ∧ left.length = 2 ∧ right.length = 1 :=
  C1_two_column_split exDivBilingual 2 1 (by decide) (by decide) (by decide)

/-- C2 counterexample: the claim maps every disallowed character to its
own underscore, but the code collapses each maximal run of disallowed
characters into a single underscore: on the label `a!!b` the code yields
`a_b` while the claimed per-character mapping yields `a__b`. -/
theorem C2_per_char_mapping_fails :
    sanitizeId "a!!b" = "a_b"
    ∧ specSanitizeId "a!!b" = "a__b"
    ∧ sectionId exDivBang = "div_a_b"
    ∧ sectionId exDivBang ≠ "div_" ++ specSanitizeId "a!!b" := by
  refine ⟨by decide, by decide, by decide, ?_⟩
  decide

/-- C2 (amended): for every division the section id is the fixed
namespace token `div_` followed by the sanitized label, where sanitizing
replaces each maximal run of characters outside `[A-Za-z0-9.\-_]` by a
single underscore and then trims leading/trailing underscores; in
particular the sanitized part contains only characters of that class and
neither starts nor ends with an underscore. -/
theorem C2_section_id_sanitized (d : Div) :
    sectionId d = "div_" ++ sanitizeId (divLabel d)
    ∧ sanitizeId (divLabel d)
        = String.mk (trimUnderscores (collapseRuns (divLabel d).data))
    ∧ (∀ c ∈ (sanitizeId (divLabel d)).data, isAllowed c = true)
    ∧ (sanitizeId (divLabel d)).data.head? ≠ some '_'
    ∧ (sanitizeId (divLabel d)).data.getLast? ≠ some '_' :=
  ⟨rfl, rfl, sanitizeId_chars _, sanitizeId_head? _, sanitizeId_getLast? _⟩

/-- Witness for C2 (amended) at the concrete label `a!!b`. -/
theorem C2_section_id_sanitized_holds :
    sectionId exDivBang = "div_" ++ sanitizeId (divLabel exDivBang)
    ∧ (sanitizeId (divLabel exDivBang)).data.head? ≠ some '_'
    ∧ (sanitizeId (divLabel exDivBang)).data.getLast? ≠ some '_' :=
  ⟨(C2_section_id_sanitized exDivBang).1,
   (C2_section_id_sanitized exDivBang).2.2.2.1,
   (C2_section_id_sanitized exDivBang).2.2.2.2⟩

/-- C3 counterexample: for a division with neither `n` nor `type` the
claim demands the empty label, but the code renders the fallback label
`div` (`d.n ? d.n : (d.type || "div")`). -/
theorem C3_empty_label_fails :
    (tocEntry emptyDiv).label = "div"
    ∧ specTocLabel emptyDiv = ""
    ∧ (tocEntry emptyDiv).label ≠ specTocLabel emptyDiv := by
  refine ⟨by decide, by decide, ?_⟩
  decide

/-- C3 (amended): for every division the TOC entry is an anchor whose
href is `#` followed by that division's section id, and whose label is
the division's `n` when truthy, else its `type` when truthy, else the
fixed fallback string `div`. -/
theorem C3_toc_entry (d : Div) :
    (tocEntry d).href = "#" ++ sectionId d
    ∧ (tocEntry d).label =
        (if truthy d.n then strVal d.n
         else if truthy d.type then strVal d.type
         else "div") :=
  ⟨rfl, rfl⟩

/-- C4: for a division whose markup contains no `p[lang="en"]`
paragraph, `buildDivContent` wraps the original markup unchanged in the
single-column container. -/
theorem C4_no_translation_passthrough (d : Div)
    (h : (forestAllPs d.html).filter (hasLang "en") = []) :
    buildDivContent d = .plain d.html := by
  have hc : (forestPs "en" d.html).length = 0 := by
    rw [forestPs_eq_filter, h]
    rfl
  simp only [buildDivContent]
  rw [if_pos hc]

/-- Witness for C4 at a concrete division holding a Greek paragraph and
an untagged paragraph but no English one. -/
theorem C4_no_translation_passthrough_holds :
    buildDivContent exDivGreekOnly = .plain exDivGreekOnly.html :=
  C4_no_translation_passthrough exDivGreekOnly (by decide)

/-- C9: the id computed in the TOC pass and the id assigned to the
rendered section element come from the same expression, so every TOC
anchor's href fragment equals the id of the section rendered for the
same division. -/
theorem C9_toc_targets_section (d : Div) :
    tocId d = sectionId d
    ∧ (tocEntry d).href = "#" ++ (renderSection d).id :=
  ⟨rfl, rfl⟩

/-- C5: `loadBodyJson` returns the pre-set global payload whenever it is
a non-null object (performing no fetch); otherwise it fetches, fails
exactly when the response is not ok — with the status text embedded in
the message — and returns the parsed payload on success. -/
theorem C5_loader (env : LoadEnv) :
    (∀ b, env.windowBody = some b →
        loadBodyJson env = { result := .ok b, fetched := false })
    ∧ (env.windowBody = none →
        (loadBodyJson env).fetched = true
        ∧ ((∃ e, (loadBodyJson env).result = .error e) ↔ env.response.ok = false)
        ∧ (env.response.ok = false →
            (loadBodyJson env).result =
              .error ("Failed to fetch body.json: " ++ env.response.statusText))
        ∧ (env.response.ok = true →
            (loadBodyJson env).result = .ok env.response.json)) := by
  constructor
  · intro b hb
    simp [loadBodyJson, hb]
  · intro hnone
    cases hok : env.response.ok <;>
      simp [loadBodyJson, hnone, hok]

/-- Witness for C5 at a concrete environment with no pre-set payload and
a failing response with status text `Not Found`. -/
theorem C5_loader_holds :
    (loadBodyJson exEnvFail).fetched = true
    ∧ (loadBodyJson exEnvFail).result = .error "Failed to fetch body.json: Not Found" := by
  have h := (C5_loader exEnvFail).2 rfl
  exact ⟨h.1, by rw [h.2.2.1 rfl]; rfl⟩

/-- C6: a rendered section with an annotation toggle starts collapsed
with the collapsed button attributes, and the toggle transition applied
twice to either of the two fixed states returns that state (an
involution between collapsed and expanded). -/
theorem C6_toggle_involution (d : Div) (v : SecView)
    (hbtn : (renderSection d).toggle ≠ none)
    (hv : v = collapsedView ∨ v = expandedView) :
    ((renderSection d).expandedClass = false
      ∧ (renderSection d).toggle = some collapsedView.btn)
    ∧ toggleSection (toggleSection v) = v := by
  refine ⟨⟨rfl, ?_⟩, ?_⟩
  · have ht : (renderSection d).toggle =
        (if hasCommentary d || hasApparatus d then
          some { ariaExpanded := "false", label := mostraLabel }
         else none) := rfl
    rw [ht] at hbtn ⊢
    by_cases hca : (hasCommentary d || hasApparatus d) = true
    · rw [if_pos hca]
      rfl
    · rw [if_neg hca] at hbtn
      exact absurd rfl hbtn
  · rcases hv with h | h <;> subst h <;> decide

/-- Witness for C6 at a concrete division with commentary, starting from
the collapsed state. -/
theorem C6_toggle_involution_holds :
    ((renderSection exDivCommented).expandedClass = false
      ∧ (renderSection exDivCommented).toggle = some collapsedView.btn)
    ∧ toggleSection (toggleSection collapsedView) = collapsedView :=
  C6_toggle_involution exDivCommented collapsedView (by decide) (Or.inl rfl)

/-- C7: a theme-toggle activation always lands on an explicit light or
dark attribute (never the unset state), the persisted preference always
equals the applied attribute, and from an explicit mode two activations
return to the original mode. -/
theorem C7_theme_toggle (st : ThemeState) :
    ((themeClick st).attr = some "light" ∨ (themeClick st).attr = some "dark")
    ∧ (themeClick st).stored = (themeClick st).attr
    ∧ ((st.attr = some "light" ∨ st.attr = some "dark") →
        (themeClick (themeClick st)).attr = st.attr) := by
  by_cases h : st.attr = some "dark"
  · refine ⟨Or.inl ?_, ?_, ?_⟩ <;> simp [themeClick, applyTheme, h]
  · refine ⟨Or.inr ?_, ?_, ?_⟩
    · simp [themeClick, applyTheme, h]
    · simp [themeClick, applyTheme, h]
    · intro hexp
      rcases hexp with hl | hd
      · simp [themeClick, applyTheme, hl]
      · exact absurd hd h

/-- Witness for C7 starting from the explicit light mode. -/
theorem C7_theme_toggle_holds :
    ((themeClick exThemeLight).attr = some "light"
      ∨ (themeClick exThemeLight).attr = some "dark")
    ∧ (themeClick exThemeLight).stored = (themeClick exThemeLight).attr
    ∧ (themeClick (themeClick exThemeLight)).attr = exThemeLight.attr :=
  ⟨(C7_theme_toggle exThemeLight).1, (C7_theme_toggle exThemeLight).2.1,
   (C7_theme_toggle exThemeLight).2.2 (Or.inl rfl)⟩

/-- C8: with the sidebar present, an absent or empty payload witness
list renders the card with exactly the 4 fixed fallback entries, a
non-empty payload list is rendered instead, and the siglum `AI` is
displayed as `AI (ed.)` while every other siglum is displayed
unchanged. -/
theorem C8_witness_panel (p : Payload) (ws : List Witness) (w : Witness) :
    ((p.meta = none
        ∨ (∃ m, p.meta = some m ∧ m.witnesses = none)
        ∨ (∃ m, p.meta = some m ∧ m.witnesses = some [])) →
      resolveWitnesses p = fallbackWitnesses
      ∧ fallbackWitnesses.length = 4
      ∧ renderSpecimen true p =
          .card (fallbackWitnesses.map (fun x => (displaySiglum x, strVal x.text))))
    ∧ ((∃ m, p.meta = some m ∧ m.witnesses = some ws) → ws ≠ [] →
        resolveWitnesses p = ws
        ∧ renderSpecimen true p =
            .card (ws.map (fun x => (displaySiglum x, strVal x.text))))
    ∧ (w.id = "AI" → displaySiglum w = "AI (ed.)")
    ∧ (w.id ≠ "AI" → displaySiglum w = w.id) := by
  have hspec : ∀ q : Payload, renderSpecimen true q =
      (if (resolveWitnesses q).length = 0 then .cleared
       else .card ((resolveWitnesses q).map (fun x => (displaySiglum x, strVal x.text)))) :=
    fun q => rfl
  refine ⟨?_, ?_, ?_, ?_⟩
  · intro h
    have hres : resolveWitnesses p = fallbackWitnesses := by
      rcases h with h | ⟨m, hm, hw⟩ | ⟨m, hm, hw⟩
      · simp [resolveWitnesses, h]
      · simp [resolveWitnesses, hm, hw]
      · simp [resolveWitnesses, hm, hw]
    refine ⟨hres, rfl, ?_⟩
    rw [hspec p, hres]
    rfl
  · rintro ⟨m, hm, hw⟩ hne
    have hres : resolveWitnesses p = ws := by
      simp [resolveWitnesses, hm, hw, List.length_eq_zero, hne]
    have hlen : (resolveWitnesses p).length ≠ 0 := by
      rw [hres]
      simpa [List.length_eq_zero] using hne
    refine ⟨hres, ?_⟩
    rw [hspec p, if_neg hlen, hres]
  · intro h
    simp [displaySiglum, h]
  · intro h
    simp [displaySiglum, h]

/-- Witness for C8: the fallback card for a payload with no meta, and
the payload card for a one-entry witness list. -/
theorem C8_witness_panel_holds :
    renderSpecimen true pNoMeta =
      .card [("A", "Codex A (fict.), saec. XII"),
             ("B", "Codex B (fict.), saec. XIII"),
             ("C", "Codex C (fict.), saec. XIV"),
             ("AI (ed.)", "Aulus Intellex (ed.)")]
    ∧ renderSpecimen true pOneWitness = .card [("P", "Papyrus")] := by
  constructor
  · have h := (C8_witness_panel pNoMeta [] { id := "AI", text := none }).1 (Or.inl rfl)
    rw [h.2.2]
    rfl
  · have h := (C8_witness_panel pOneWitness [{ id := "P", text := some "Papyrus" }]
      { id := "AI", text := none }).2.1 ⟨_, rfl, rfl⟩ (by decide)
    rw [h.2]
    rfl

/-- C10: the resolved witness list is never empty (it is the non-empty
payload list or the 4-entry fallback), so `renderSpecimen` never takes
the branch that clears the host. -/
theorem C10_cleared_branch_unreachable (sp : Bool) (p : Payload) :
    resolveWitnesses p ≠ [] ∧ renderSpecimen sp p ≠ .cleared := by
  have hres : resolveWitnesses p ≠ [] := by
    rcases hm : p.meta with _ | m
    · simp [resolveWitnesses, hm, fallbackWitnesses]
    · rcases hw : m.witnesses with _ | ws
      · simp [resolveWitnesses, hm, hw, fallbackWitnesses]
      · by_cases hlen : ws.length ≠ 0
        · rw [show resolveWitnesses p = ws from by simp [resolveWitnesses, hm, hw, hlen]]
          intro hnil
          rw [hnil] at hlen
          exact hlen rfl
        · rw [show resolveWitnesses p = fallbackWitnesses from by
            simp [resolveWitnesses, hm, hw, hlen]]
          simp [fallbackWitnesses]
  refine ⟨hres, ?_⟩
  cases sp
  · rw [show renderSpecimen false p = .skipped from rfl]
    simp
  · have hlen : (resolveWitnesses p).length ≠ 0 := by
      simpa [List.length_eq_zero] using hres
    have h0 : renderSpecimen true p =
        (if (resolveWitnesses p).length = 0 then .cleared
         else .card ((resolveWitnesses p).map (fun x => (displaySiglum x, strVal x.text)))) :=
      rfl
    rw [h0, if_neg hlen]
    simp

/-- Witness for C10 at a concrete payload with no meta. -/
theorem C10_cleared_branch_unreachable_holds :
    resolveWitnesses pNoMeta ≠ [] ∧ renderSpecimen true pNoMeta ≠ .cleared :=
  C10_cleared_branch_unreachable true pNoMeta

end App
